import Mathlib

/-!
Shallow embedding of `kivy/input/motionevent.py` (class `MotionEvent`).

Modelling conventions:
* Python floats are modelled as `Rat`: every operation the claims mention is
  exact linear arithmetic (products, differences of coordinates), so rational
  arithmetic is a faithful model of the values the code computes.
* Attributes that the source initialises to `None` and later assigns a number
  (`osx`, `px`, `dx`, ...) are `Option Rat`; the source's `is None` tests are
  matches on the option.
* Weak references to claimant objects are modelled as `Nat` identities
  (`weakref.ref(c) == weakref.ref(c)` compares referent identity; claimant
  garbage collection is not modelled, every claimant stays alive).
* `time()` is modelled by an explicit `now` argument to the operations that
  read the clock (`__init__`, `move`).
* A Python statement that would raise `TypeError` (arithmetic on `None`),
  `IndexError` (pop from an empty list) or the explicit `Exception`s raised by
  `grab` is modelled by a fallible result (`Option` / `Except PyError`).
* `uid`, `shape`, `ud` and the profile machinery are carried or omitted as
  plain data; no modelled operation reads them.
-/

/-- Errors raised by the modelled operations.  `notGrabbable` and
`alreadyExclusive` are the two `Exception`s raised by `grab`;
`emptyStackUnderflow` is the `IndexError` from `pop()` on an empty stack. -/
inductive PyError where
  | notGrabbable
  | alreadyExclusive
  | emptyStackUnderflow
  deriving DecidableEq, Repr

/-- Names of the coordinate attributes (plus the cached `pos` pair) that the
snapshot stack can capture and restore via `getattr` / `setattr`. -/
inductive AttrName where
  | sx | sy | sz
  | osx | osy | osz
  | psx | psy | psz
  | dsx | dsy | dsz
  | x | y | z
  | ox | oy | oz
  | px | py | pz
  | dx | dy | dz
  | pos
  deriving DecidableEq, Repr

/-- A dynamically typed attribute value, as read back by `getattr`. -/
inductive Value where
  | rat : Rat → Value
  | orat : Option Rat → Value
  | pair : Rat × Rat → Value
  deriving DecidableEq, Repr

/-- The state of one `MotionEvent` instance (`src/kivy/input/motionevent.py`,
`__init__`, lines 149-264).  Field names follow the source. -/
structure MotionEvent where
  device : String
  id : Nat
  is_touch : Bool
  profile : List String
  /-- current position, in 0-1 range -/
  sx : Rat
  sy : Rat
  sz : Rat
  /-- first position set, in 0-1 range -/
  osx : Option Rat
  osy : Option Rat
  osz : Option Rat
  /-- last position set, in 0-1 range -/
  psx : Option Rat
  psy : Option Rat
  psz : Option Rat
  /-- delta between current and last position, in 0-1 range -/
  dsx : Option Rat
  dsy : Option Rat
  dsz : Option Rat
  /-- current position, in screen range -/
  x : Rat
  y : Rat
  z : Rat
  /-- first position set, in screen range -/
  ox : Option Rat
  oy : Option Rat
  oz : Option Rat
  /-- last position set, in screen range -/
  px : Option Rat
  py : Option Rat
  pz : Option Rat
  /-- delta between current and last position, in screen range -/
  dx : Option Rat
  dy : Option Rat
  dz : Option Rat
  /-- cached position pair (x, y), in screen range -/
  pos : Rat × Rat
  time_start : Rat
  time_update : Rat
  time_end : Rat
  is_double_tap : Bool
  double_tap_time : Rat
  /-- attributes pushed by default by `push` -/
  push_attrs : List AttrName
  /-- snapshot stack; Python appends and pops at the list's end, modelled here
  with the top of the stack at the head of the list -/
  push_attrs_stack : List (List AttrName × List Value)
  grab_list : List Nat
  grab_exclusive_class : Option Nat
  grab_state : Bool
  grab_current : Option Nat
  deriving DecidableEq

/-- The default push set (source lines 161-162). -/
def defaultPushAttrs : List AttrName :=
  [.x, .y, .z, .dx, .dy, .dz, .ox, .oy, .oz, .px, .py, .pz, .pos]

/-- Python `getattr(self, name)` restricted to the modelled attribute names. -/
def getattr (s : MotionEvent) : AttrName → Value
  | .sx => .rat s.sx
  | .sy => .rat s.sy
  | .sz => .rat s.sz
  | .osx => .orat s.osx
  | .osy => .orat s.osy
  | .osz => .orat s.osz
  | .psx => .orat s.psx
  | .psy => .orat s.psy
  | .psz => .orat s.psz
  | .dsx => .orat s.dsx
  | .dsy => .orat s.dsy
  | .dsz => .orat s.dsz
  | .x => .rat s.x
  | .y => .rat s.y
  | .z => .rat s.z
  | .ox => .orat s.ox
  | .oy => .orat s.oy
  | .oz => .orat s.oz
  | .px => .orat s.px
  | .py => .orat s.py
  | .pz => .orat s.pz
  | .dx => .orat s.dx
  | .dy => .orat s.dy
  | .dz => .orat s.dz
  | .pos => .pair s.pos

/-- Python `setattr(self, name, value)` restricted to the modelled attribute
names.  A bare number stored into a `None`-able attribute becomes `some`;
an assignment whose value shape cannot inhabit the typed field (never produced
by the source's read-then-restore pattern) leaves the state unchanged. -/
def setattr (s : MotionEvent) (a : AttrName) (v : Value) : MotionEvent :=
  match a, v with
  | .sx, .rat r => { s with sx := r }
  | .sy, .rat r => { s with sy := r }
  | .sz, .rat r => { s with sz := r }
  | .x, .rat r => { s with x := r }
  | .y, .rat r => { s with y := r }
  | .z, .rat r => { s with z := r }
  | .osx, .orat r => { s with osx := r }
  | .osy, .orat r => { s with osy := r }
  | .osz, .orat r => { s with osz := r }
  | .psx, .orat r => { s with psx := r }
  | .psy, .orat r => { s with psy := r }
  | .psz, .orat r => { s with psz := r }
  | .dsx, .orat r => { s with dsx := r }
  | .dsy, .orat r => { s with dsy := r }
  | .dsz, .orat r => { s with dsz := r }
  | .ox, .orat r => { s with ox := r }
  | .oy, .orat r => { s with oy := r }
  | .oz, .orat r => { s with oz := r }
  | .px, .orat r => { s with px := r }
  | .py, .orat r => { s with py := r }
  | .pz, .orat r => { s with pz := r }
  | .dx, .orat r => { s with dx := r }
  | .dy, .orat r => { s with dy := r }
  | .dz, .orat r => { s with dz := r }
  | .osx, .rat r => { s with osx := some r }
  | .osy, .rat r => { s with osy := some r }
  | .osz, .rat r => { s with osz := some r }
  | .psx, .rat r => { s with psx := some r }
  | .psy, .rat r => { s with psy := some r }
  | .psz, .rat r => { s with psz := some r }
  | .dsx, .rat r => { s with dsx := some r }
  | .dsy, .rat r => { s with dsy := some r }
  | .dsz, .rat r => { s with dsz := some r }
  | .ox, .rat r => { s with ox := some r }
  | .oy, .rat r => { s with oy := some r }
  | .oz, .rat r => { s with oz := some r }
  | .px, .rat r => { s with px := some r }
  | .py, .rat r => { s with py := some r }
  | .pz, .rat r => { s with pz := some r }
  | .dx, .rat r => { s with dx := some r }
  | .dy, .rat r => { s with dy := some r }
  | .dz, .rat r => { s with dz := some r }
  | .pos, .pair q => { s with pos := q }
  | _, _ => s

/-- Provider payload for `depack`.  A `none` field is a payload that does not
supply that coordinate (it then retains its previous value). -/
structure Args where
  sx : Option Rat
  sy : Option Rat
  sz : Option Rat
  deriving DecidableEq

/-- Source `MotionEvent.depack` (lines 266-276).

Modelled from the spec: the concrete provider subclasses that parse the raw
payload into `sx, sy, sz` are not part of this repository; per the spec,
`initialize(rawArgs)` "parses provider-specific payload into normalized
coordinates" and fields the payload does not supply "retain previous values".
The origin seeding (`if self.osx is None`, lines 269-272) and the delta
recomputation (lines 274-276) follow the source; the delta subtraction on a
`None` previous coordinate is a Python `TypeError`, modelled as `none`. -/
def depack (s : MotionEvent) (args : Args) : Option MotionEvent :=
  let s1 := { s with
    sx := args.sx.getD s.sx, sy := args.sy.getD s.sy, sz := args.sz.getD s.sz }
  let s2 :=
    match s1.osx with
    | none => { s1 with
        psx := some s1.sx, osx := some s1.sx,
        psy := some s1.sy, osy := some s1.sy,
        psz := some s1.sz, osz := some s1.sz }
    | some _ => s1
  match s2.psx, s2.psy, s2.psz with
  | some a, some b, some c =>
      some { s2 with
        dsx := some (s2.sx - a), dsy := some (s2.sy - b), dsz := some (s2.sz - c) }
  | _, _, _ => none

/-- Source `MotionEvent.__init__` (lines 149-264): all attributes take their
documented initial values, `time_start = time_update = now`, then
`self.depack(args)` runs. -/
def mkMotionEvent (device : String) (id : Nat) (args : Args) (now : Rat) :
    Option MotionEvent :=
  depack { device := device, id := id, is_touch := false, profile := []
           sx := 0, sy := 0, sz := 0
           osx := none, osy := none, osz := none
           psx := none, psy := none, psz := none
           dsx := none, dsy := none, dsz := none
           x := 0, y := 0, z := 0
           ox := none, oy := none, oz := none
           px := none, py := none, pz := none
           dx := none, dy := none, dz := none
           pos := (0, 0)
           time_start := now, time_update := now, time_end := -1
           is_double_tap := false, double_tap_time := 0
           push_attrs := defaultPushAttrs, push_attrs_stack := []
           grab_list := [], grab_exclusive_class := none
           grab_state := false, grab_current := none } args

/-- Source `MotionEvent.grab` (lines 278-307). -/
def grab (s : MotionEvent) (class_instance : Nat) (exclusive : Bool) :
    Except PyError MotionEvent :=
  if s.is_touch = false then .error .notGrabbable
  else if s.grab_exclusive_class.isSome then .error .alreadyExclusive
  else
    let s1 := if exclusive then { s with grab_exclusive_class := some class_instance }
              else s
    .ok { s1 with grab_list := s1.grab_list ++ [class_instance] }

/-- Source `MotionEvent.ungrab` (lines 309-316): clear the exclusive claimant
if it matches, remove the first matching entry from the grab list. -/
def ungrab (s : MotionEvent) (class_instance : Nat) : MotionEvent :=
  let s1 := if s.grab_exclusive_class = some class_instance then
              { s with grab_exclusive_class := none }
            else s
  if s1.grab_list.contains class_instance then
    { s1 with grab_list := s1.grab_list.erase class_instance }
  else s1

/-- Source `MotionEvent.move` (lines 318-328): shift current into previous in
both spaces, stamp `time_update`, then `depack`. -/
def move (s : MotionEvent) (now : Rat) (args : Args) : Option MotionEvent :=
  depack { s with
    px := some s.x, py := some s.y, pz := some s.z,
    psx := some s.sx, psy := some s.sy, psz := some s.sz,
    time_update := now } args

/-- The rotation block of `scale_for_screen` (source lines 333-348): the
local swapped pair `sx, sy` is inlined into the two assignments of each
branch; an unsupported rotation value leaves `x` and `y` untouched. -/
def rotStep (s : MotionEvent) (w h : Rat) (rotation : Int) : MotionEvent :=
  if rotation = 0 then { s with x := s.sx * w, y := s.sy * h }
  else if rotation = 90 then { s with x := s.sy * h, y := (1 - s.sx) * w }
  else if rotation = 180 then { s with x := (1 - s.sx) * w, y := (1 - s.sy) * h }
  else if rotation = 270 then { s with x := (1 - s.sy) * h, y := s.sx * w }
  else s

/-- The perspective line of `scale_for_screen` (source lines 350-351):
`if p: self.z = self.sz * float(p)`.  `p = some 0` models `p=0.0`, falsy in
Python, so `z` is updated only when `p` is present and nonzero. -/
def pStep (s1 : MotionEvent) (p : Option Rat) : MotionEvent :=
  match p with
  | some pv => if pv = 0 then s1 else { s1 with z := s1.sz * pv }
  | none => s1

/-- The closing lines of `scale_for_screen` (source lines 352-362): one-time
origin/previous seeding, screen-delta recomputation, and the `pos` cache.
The delta lines subtract the previous screen coordinates; if one of them is
still `None` that is a Python `TypeError`, modelled as `none`. -/
def seedAndDelta (s2 : MotionEvent) : Option MotionEvent :=
  let s3 :=
    match s2.ox with
    | none => { s2 with
        px := some s2.x, ox := some s2.x,
        py := some s2.y, oy := some s2.y,
        pz := some s2.z, oz := some s2.z }
    | some _ => s2
  match s3.px, s3.py, s3.pz with
  | some px0, some py0, some pz0 =>
      some { s3 with
        dx := some (s3.x - px0), dy := some (s3.y - py0), dz := some (s3.z - pz0),
        pos := (s3.x, s3.y) }
  | _, _, _ => none

/-- The tail of `scale_for_screen` after the rotation block (source lines
350-362). -/
def scaleTail (s1 : MotionEvent) (p : Option Rat) : Option MotionEvent :=
  seedAndDelta (pStep s1 p)

/-- Source `MotionEvent.scale_for_screen` (lines 330-362), as the rotation
block followed by the tail. -/
def scale_for_screen (s : MotionEvent) (w h : Rat) (p : Option Rat)
    (rotation : Int) : Option MotionEvent :=
  scaleTail (rotStep s w h rotation) p

/-- Source `MotionEvent.push` (lines 364-370): `none` means the default
attribute set `self.push_attrs`. -/
def push (s : MotionEvent) (attrs : Option (List AttrName)) : MotionEvent :=
  let a := attrs.getD s.push_attrs
  { s with push_attrs_stack := (a, a.map (getattr s)) :: s.push_attrs_stack }

/-- The restore loop of `pop` (source lines 376-377): sequential `setattr`
from index 0 upward. -/
def restoreAttrs (s : MotionEvent) : List AttrName → List Value → MotionEvent
  | a :: as, v :: vs => restoreAttrs (setattr s a v) as vs
  | _, _ => s

/-- Source `MotionEvent.pop` (lines 372-377): the stack is popped first (an
`IndexError` on an empty stack, before any attribute is written), then each
captured attribute is restored. -/
def pop (s : MotionEvent) : Except PyError MotionEvent :=
  match s.push_attrs_stack with
  | [] => .error .emptyStackUnderflow
  | (attrs, values) :: rest =>
      .ok (restoreAttrs { s with push_attrs_stack := rest } attrs values)

/-- Python object semantics of a `pop` whose exception propagates: the event
object is left exactly as it was. -/
def tryPop (s : MotionEvent) : MotionEvent :=
  match pop s with
  | .ok t => t
  | .error _ => s

/-- Source `MotionEvent.apply_transform_2d` (lines 379-387).  The transform is
an arbitrary caller-supplied 2D mapping; applying it to a still-`None`
previous/origin pair is a caller `TypeError`, modelled as `none`. -/
def apply_transform_2d (s : MotionEvent) (f : Rat → Rat → Rat × Rat) :
    Option MotionEvent :=
  let q := f s.x s.y
  let s1 := { s with x := q.1, y := q.2, pos := q }
  match s1.px, s1.py, s1.ox, s1.oy with
  | some px0, some py0, some ox0, some oy0 =>
      let pq := f px0 py0
      let oq := f ox0 oy0
      some { s1 with
        px := some pq.1, py := some pq.2,
        ox := some oq.1, oy := some oq.2,
        dx := some (s1.x - pq.1), dy := some (s1.y - pq.2) }
  | _, _, _, _ => none

/-- Apply a list of raw attribute reassignments in order. -/
def applyMuts (ms : List (AttrName × Value)) (s : MotionEvent) : MotionEvent :=
  ms.foldl (fun u m => setattr u m.1 m.2) s

/-- States reachable from construction by the modelled operations, with
`push` restricted to the default attribute set (`push(s, none)` reads
`self.push_attrs`).  A step is taken only when the operation succeeds. -/
inductive Reach : MotionEvent → Prop where
  | init (device : String) (id : Nat) (args : Args) (now : Rat)
      (e : MotionEvent) : mkMotionEvent device id args now = some e → Reach e
  | step_depack (s t : MotionEvent) (args : Args) :
      Reach s → depack s args = some t → Reach t
  | step_move (s t : MotionEvent) (now : Rat) (args : Args) :
      Reach s → move s now args = some t → Reach t
  | step_scale (s t : MotionEvent) (w h : Rat) (p : Option Rat) (rotation : Int) :
      Reach s → scale_for_screen s w h p rotation = some t → Reach t
  | step_apply (s t : MotionEvent) (f : Rat → Rat → Rat × Rat) :
      Reach s → apply_transform_2d s f = some t → Reach t
  | step_grab (s t : MotionEvent) (c : Nat) (exclusive : Bool) :
      Reach s → grab s c exclusive = .ok t → Reach t
  | step_ungrab (s : MotionEvent) (c : Nat) :
      Reach s → Reach (ungrab s c)
  | step_push (s : MotionEvent) :
      Reach s → Reach (push s none)
  | step_pop (s t : MotionEvent) :
      Reach s → pop s = .ok t → Reach t

/-- A concrete touch event used by the closed witness statements: the state a
provider-made touch would be in right after construction parsed a payload,
with `is_touch` set by the provider subclass. -/
def sampleTouch : MotionEvent :=
  { device := "mouse", id := 1, is_touch := true, profile := ["pos"]
    sx := 1/2, sy := 1/4, sz := 0
    osx := some (1/2), osy := some (1/4), osz := some 0
    psx := some (1/2), psy := some (1/4), psz := some 0
    dsx := some 0, dsy := some 0, dsz := some 0
    x := 0, y := 0, z := 0
    ox := none, oy := none, oz := none
    px := none, py := none, pz := none
    dx := none, dy := none, dz := none
    pos := (0, 0)
    time_start := 0, time_update := 0, time_end := -1
    is_double_tap := false, double_tap_time := 0
    push_attrs := defaultPushAttrs, push_attrs_stack := []
    grab_list := [], grab_exclusive_class := none
    grab_state := false, grab_current := none }

/-- C1: `grab` raises `NotGrabbable` when the event is not a touch; raises
`AlreadyExclusive` whenever an exclusive claimant is already recorded;
otherwise appends the claimant to `grab_list` (no dedupe) and records it as
the exclusive claimant exactly when `exclusive` is true; consequently any
grab made after a successful exclusive grab raises `AlreadyExclusive`. -/
theorem grab_semantics (s : MotionEvent) (c : Nat) (exclusive : Bool) :
    (s.is_touch = false → grab s c exclusive = .error .notGrabbable) ∧
    (s.is_touch = true → s.grab_exclusive_class.isSome = true →
      grab s c exclusive = .error .alreadyExclusive) ∧
    (s.is_touch = true → s.grab_exclusive_class = none →
      grab s c exclusive = .ok { s with
        grab_exclusive_class := if exclusive then some c else none,
        grab_list := s.grab_list ++ [c] }) ∧
    (∀ t, grab s c true = .ok t →
      ∀ c2 e2, grab t c2 e2 = .error .alreadyExclusive) := by
  refine ⟨?_, ?_, ?_, ?_⟩
  · intro h; simp [grab, h]
  · intro h1 h2; simp [grab, h1, h2]
  · intro h1 h2
    cases exclusive <;> simp [grab, h1, h2]
  · intro t ht c2 e2
    by_cases h1 : s.is_touch = false
    · simp [grab, h1] at ht
    · by_cases h2 : s.grab_exclusive_class.isSome = true
      · simp [grab, h1, h2] at ht
      · simp [grab, h1, h2] at ht
        subst ht
        simp [grab, h1]

/-- Witness for C1: each branch of `grab_semantics` at a concrete event. -/
theorem grab_semantics_witness :
    grab { sampleTouch with is_touch := false } 7 false = .error .notGrabbable ∧
    grab { sampleTouch with grab_exclusive_class := some 3 } 7 false
      = .error .alreadyExclusive ∧
    grab sampleTouch 7 true = .ok { sampleTouch with
      grab_exclusive_class := some 7, grab_list := [7] } ∧
    grab { sampleTouch with grab_exclusive_class := some 7, grab_list := [7] }
      9 false = .error .alreadyExclusive := by
  refine ⟨(grab_semantics _ 7 false).1 rfl,
          (grab_semantics _ 7 false).2.1 rfl rfl,
          ?_,
          (grab_semantics _ 9 false).2.1 rfl rfl⟩
  have h := (grab_semantics sampleTouch 7 true).2.2.1 rfl rfl
  simpa [sampleTouch] using h

/-- The rotation block only rewrites `x` and `y`, by the source's table. -/
theorem rotStep_eq (s : MotionEvent) (w h : Rat) (rot : Int) :
    rotStep s w h rot = { s with
      x := if rot = 0 then s.sx * w else if rot = 90 then s.sy * h
           else if rot = 180 then (1 - s.sx) * w
           else if rot = 270 then (1 - s.sy) * h else s.x,
      y := if rot = 0 then s.sy * h else if rot = 90 then (1 - s.sx) * w
           else if rot = 180 then (1 - s.sy) * h
           else if rot = 270 then s.sx * w else s.y } := by
  unfold rotStep
  split_ifs <;> simp_all

/-- The perspective line only rewrites `z`. -/
theorem pStep_eq (s1 : MotionEvent) (p : Option Rat) :
    pStep s1 p = { s1 with
      z := match p with
           | some pv => if pv = 0 then s1.z else s1.sz * pv
           | none => s1.z } := by
  rcases p with _ | pv
  · rfl
  · by_cases hpv : pv = 0
    · simp [pStep, hpv]
    · simp [pStep, hpv]

/-- Field accounting for the seeding/delta tail: what a successful run
preserves, what it seeds, and the cached `pos` pair. -/
theorem seedAndDelta_fields (s2 t : MotionEvent)
    (ht : seedAndDelta s2 = some t) :
    t.x = s2.x ∧ t.y = s2.y ∧ t.z = s2.z ∧ t.pos = (s2.x, s2.y) ∧
    t.sx = s2.sx ∧ t.sy = s2.sy ∧ t.sz = s2.sz ∧
    t.osx = s2.osx ∧ t.osy = s2.osy ∧ t.osz = s2.osz ∧
    t.psx = s2.psx ∧ t.psy = s2.psy ∧ t.psz = s2.psz ∧
    t.dsx = s2.dsx ∧ t.dsy = s2.dsy ∧ t.dsz = s2.dsz ∧
    (∀ v, s2.ox = some v → t.ox = some v ∧ t.oy = s2.oy ∧ t.oz = s2.oz ∧
      t.px = s2.px ∧ t.py = s2.py ∧ t.pz = s2.pz) ∧
    (s2.ox = none → t.ox = some s2.x ∧ t.oy = some s2.y ∧ t.oz = some s2.z ∧
      t.px = some s2.x ∧ t.py = some s2.y ∧ t.pz = some s2.z) ∧
    t.push_attrs_stack = s2.push_attrs_stack ∧
    t.push_attrs = s2.push_attrs ∧
    t.grab_list = s2.grab_list ∧
    t.grab_exclusive_class = s2.grab_exclusive_class ∧
    t.is_touch = s2.is_touch ∧
    t.time_update = s2.time_update ∧
    t.time_start = s2.time_start := by
  rcases hox : s2.ox with _ | oxv
  · simp only [seedAndDelta, hox] at ht
    simp only [Option.some.injEq] at ht
    subst ht
    simp
  · rcases hpx : s2.px with _ | pxv <;>
      rcases hpy : s2.py with _ | pyv <;>
      rcases hpz : s2.pz with _ | pzv <;>
      simp only [seedAndDelta, hox, hpx, hpy, hpz] at ht
    all_goals try exact Option.noConfusion ht
    rw [Option.some.injEq] at ht
    subst ht
    simp_all

/-- Field accounting for `depack`: the parsed current coordinates, untouched
screen state, one-time origin seeding, and delta recomputation. -/
theorem depack_fields (s : MotionEvent) (args : Args) (t : MotionEvent)
    (ht : depack s args = some t) :
    t.sx = args.sx.getD s.sx ∧ t.sy = args.sy.getD s.sy ∧ t.sz = args.sz.getD s.sz ∧
    t.x = s.x ∧ t.y = s.y ∧ t.z = s.z ∧
    t.ox = s.ox ∧ t.oy = s.oy ∧ t.oz = s.oz ∧
    t.px = s.px ∧ t.py = s.py ∧ t.pz = s.pz ∧
    t.dx = s.dx ∧ t.dy = s.dy ∧ t.dz = s.dz ∧
    t.pos = s.pos ∧
    (s.osx = none → t.osx = some t.sx ∧ t.osy = some t.sy ∧ t.osz = some t.sz ∧
      t.psx = some t.sx ∧ t.psy = some t.sy ∧ t.psz = some t.sz) ∧
    (∀ v, s.osx = some v → t.osx = some v ∧ t.osy = s.osy ∧ t.osz = s.osz ∧
      t.psx = s.psx ∧ t.psy = s.psy ∧ t.psz = s.psz) ∧
    (∀ a, t.psx = some a → t.dsx = some (t.sx - a)) ∧
    (∀ a, t.psy = some a → t.dsy = some (t.sy - a)) ∧
    (∀ a, t.psz = some a → t.dsz = some (t.sz - a)) ∧
    t.push_attrs_stack = s.push_attrs_stack ∧
    t.push_attrs = s.push_attrs ∧
    t.grab_list = s.grab_list ∧
    t.grab_exclusive_class = s.grab_exclusive_class ∧
    t.is_touch = s.is_touch ∧
    t.time_update = s.time_update ∧
    t.time_start = s.time_start := by
  rcases hosx : s.osx with _ | ov
  · simp only [depack, hosx] at ht
    rw [Option.some.injEq] at ht
    subst ht
    simp
  · rcases hpsx : s.psx with _ | pa <;>
      rcases hpsy : s.psy with _ | pb <;>
      rcases hpsz : s.psz with _ | pc <;>
      simp only [depack, hosx, hpsx, hpsy, hpsz] at ht
    all_goals try exact Option.noConfusion ht
    rw [Option.some.injEq] at ht
    subst ht
    simp_all

/-- The seeding/delta tail succeeds on first projection (`ox` still unset) or
whenever the previous screen coordinates are all set. -/
theorem seedAndDelta_isSome (s2 : MotionEvent)
    (h : s2.ox = none ∨
      (s2.px.isSome = true ∧ s2.py.isSome = true ∧ s2.pz.isSome = true)) :
    (seedAndDelta s2).isSome = true := by
  rcases hox : s2.ox with _ | oxv
  · simp [seedAndDelta, hox]
  · rcases h with h | ⟨h1, h2, h3⟩
    · rw [hox] at h; exact Option.noConfusion h
    · rcases hpx : s2.px with _ | a
      · rw [hpx] at h1; simp at h1
      rcases hpy : s2.py with _ | b
      · rw [hpy] at h2; simp at h2
      rcases hpz : s2.pz with _ | c
      · rw [hpz] at h3; simp at h3
      simp [seedAndDelta, hox, hpx, hpy, hpz]

/-- C2: with `rotation=0` the screen position is `(sx*w, sy*h)`; and on the
spec's worked example (`sx=1/2`, `sy=1/4`, `w=200`, `h=100`, `rotation=90`)
the swapped normalized pair is `(1/4, 1/2)` and the resulting screen position
is `x = 25 = 1/4 * 100` and `y = 100 = 1/2 * 200`. -/
theorem scale_rotation_table :
    (∀ (s t : MotionEvent) (w h : Rat) (p : Option Rat),
        scale_for_screen s w h p 0 = some t →
        t.x = s.sx * w ∧ t.y = s.sy * h) ∧
    (sampleTouch.sy, 1 - sampleTouch.sx) = ((1 : Rat)/4, (1 : Rat)/2) ∧
    (scale_for_screen sampleTouch 200 100 none 90).map (fun t => (t.x, t.y))
      = some (25, 100) ∧
    (25 : Rat) = 1/4 * 100 ∧ (100 : Rat) = 1/2 * 200 := by
  refine ⟨?_, ?_, ?_, by norm_num, by norm_num⟩
  · intro s t w h p hs
    have hs2 : seedAndDelta (pStep (rotStep s w h 0) p) = some t := hs
    obtain ⟨hx, hy, -⟩ := seedAndDelta_fields _ _ hs2
    constructor
    · rw [hx]; simp [pStep_eq, rotStep_eq]
    · rw [hy]; simp [pStep_eq, rotStep_eq]
  · norm_num [sampleTouch]
  · norm_num [scale_for_screen, scaleTail, seedAndDelta, pStep, rotStep,
      sampleTouch]

/-- Witness for C2: the rotation-0 rule evaluated on a concrete event. -/
theorem scale_rotation_table_witness :
    (scale_for_screen sampleTouch 200 100 none 0).map (fun t => (t.x, t.y))
      = some (100, 25) := by
  rcases hsc : scale_for_screen sampleTouch 200 100 none 0 with _ | t
  · simp [scale_for_screen, scaleTail, seedAndDelta, pStep, rotStep,
      sampleTouch] at hsc
  · obtain ⟨hx, hy⟩ := scale_rotation_table.1 sampleTouch t 200 100 none hsc
    norm_num [hx, hy, sampleTouch]

/-- C9: for every rotation value outside {0, 90, 180, 270}, `scale_for_screen`
raises no error (whenever the previous screen coordinates are available or
this is the first projection) and leaves `x` and `y` exactly as they were. -/
theorem scale_unsupported_rotation (s : MotionEvent) (w h : Rat)
    (p : Option Rat) (rot : Int)
    (h0 : rot ≠ 0) (h90 : rot ≠ 90) (h180 : rot ≠ 180) (h270 : rot ≠ 270) :
    (∀ t, scale_for_screen s w h p rot = some t → t.x = s.x ∧ t.y = s.y) ∧
    (s.ox = none ∨
        (s.px.isSome = true ∧ s.py.isSome = true ∧ s.pz.isSome = true) →
      (scale_for_screen s w h p rot).isSome = true) := by
  constructor
  · intro t hs
    have hs2 : seedAndDelta (pStep (rotStep s w h rot) p) = some t := hs
    obtain ⟨hx, hy, -⟩ := seedAndDelta_fields _ _ hs2
    constructor
    · rw [hx]; simp [pStep_eq, rotStep_eq, h0, h90, h180, h270]
    · rw [hy]; simp [pStep_eq, rotStep_eq, h0, h90, h180, h270]
  · intro hpre
    have hox : (pStep (rotStep s w h rot) p).ox = s.ox := by
      simp [pStep_eq, rotStep_eq]
    have hpx : (pStep (rotStep s w h rot) p).px = s.px := by
      simp [pStep_eq, rotStep_eq]
    have hpy : (pStep (rotStep s w h rot) p).py = s.py := by
      simp [pStep_eq, rotStep_eq]
    have hpz : (pStep (rotStep s w h rot) p).pz = s.pz := by
      simp [pStep_eq, rotStep_eq]
    have : (seedAndDelta (pStep (rotStep s w h rot) p)).isSome = true := by
      apply seedAndDelta_isSome
      rw [hox, hpx, hpy, hpz]
      exact hpre
    exact this

/-- Witness for C9: rotation 45 on a fresh-projection event succeeds and
keeps `x`, `y` at their prior values. -/
theorem scale_unsupported_rotation_witness :
    (scale_for_screen sampleTouch 200 100 none 45).isSome = true ∧
    (scale_for_screen sampleTouch 200 100 none 45).map (fun t => (t.x, t.y))
      = some (sampleTouch.x, sampleTouch.y) := by
  have h := scale_unsupported_rotation sampleTouch 200 100 none 45
    (by decide) (by decide) (by decide) (by decide)
  refine ⟨h.2 (Or.inl rfl), ?_⟩
  rcases hsc : scale_for_screen sampleTouch 200 100 none 45 with _ | t
  · have hsome := h.2 (Or.inl rfl)
    rw [hsc] at hsome
    simp at hsome
  · obtain ⟨hx, hy⟩ := h.1 t hsc
    simp [hx, hy]

/-- Field accounting for construction: initial values, seeded normalized
origin/previous, zero normalized deltas, unset screen history. -/
theorem mkMotionEvent_fields (device : String) (id : Nat) (args : Args)
    (now : Rat) (e : MotionEvent)
    (he : mkMotionEvent device id args now = some e) :
    e.osx = some e.sx ∧ e.osy = some e.sy ∧ e.osz = some e.sz ∧
    e.psx = some e.sx ∧ e.psy = some e.sy ∧ e.psz = some e.sz ∧
    e.dsx = some 0 ∧ e.dsy = some 0 ∧ e.dsz = some 0 ∧
    e.x = 0 ∧ e.y = 0 ∧ e.z = 0 ∧ e.pos = (0, 0) ∧
    e.ox = none ∧ e.oy = none ∧ e.oz = none ∧
    e.px = none ∧ e.py = none ∧ e.pz = none ∧
    e.dx = none ∧ e.dy = none ∧ e.dz = none ∧
    e.push_attrs_stack = [] ∧ e.push_attrs = defaultPushAttrs ∧
    e.grab_list = [] ∧ e.grab_exclusive_class = none ∧
    e.time_start = now ∧ e.time_update = now := by
  unfold mkMotionEvent at he
  have hd := depack_fields _ _ _ he
  obtain ⟨hsx, hsy, hsz, hx, hy, hz, hox, hoy, hoz, hpx, hpy, hpz,
    hdx, hdy, hdz, hpos, hseed, -, hdsx, hdsy, hdsz, hstack, hpush,
    hgl, hgex, -, htu, hts⟩ := hd
  obtain ⟨h1, h2, h3, h4, h5, h6⟩ := hseed rfl
  refine ⟨h1, h2, h3, h4, h5, h6, ?_, ?_, ?_, hx, hy, hz, hpos,
    hox, hoy, hoz, hpx, hpy, hpz, hdx, hdy, hdz, hstack, hpush,
    hgl, hgex, hts, htu⟩
  · rw [hdsx e.sx h4]; simp
  · rw [hdsy e.sy h5]; simp
  · rw [hdsz e.sz h6]; simp

/-- C5: on a freshly constructed event (construction runs the first depack),
origin, previous and current coincide in normalized space and the normalized
deltas are all zero. -/
theorem fresh_event_origin_previous_current (device : String) (id : Nat)
    (args : Args) (now : Rat) (e : MotionEvent)
    (he : mkMotionEvent device id args now = some e) :
    e.osx = some e.sx ∧ e.osy = some e.sy ∧ e.osz = some e.sz ∧
    e.psx = some e.sx ∧ e.psy = some e.sy ∧ e.psz = some e.sz ∧
    e.dsx = some 0 ∧ e.dsy = some 0 ∧ e.dsz = some 0 := by
  obtain ⟨h1, h2, h3, h4, h5, h6, h7, h8, h9, -⟩ :=
    mkMotionEvent_fields device id args now e he
  exact ⟨h1, h2, h3, h4, h5, h6, h7, h8, h9⟩

/-- Witness for C5 at a concrete construction. -/
theorem fresh_event_origin_previous_current_witness :
    (mkMotionEvent "touchscreen" 3 ⟨some (1/2), some (1/3), none⟩ 5).map
      (fun e => (e.osx, e.psx, e.dsx, e.osy, e.dsy))
      = some (some (1/2), some (1/2), some 0, some (1/3), some 0) := by
  rcases hmk : mkMotionEvent "touchscreen" 3 ⟨some (1/2), some (1/3), none⟩ 5
    with _ | e
  · simp [mkMotionEvent, depack] at hmk
  · obtain ⟨h1, h2, h3, h4, h5, h6, h7, h8, h9⟩ :=
      fresh_event_origin_previous_current _ _ _ _ _ hmk
    have hsx : e.sx = 1/2 := by
      have := (depack_fields _ _ _ (by exact hmk)).1
      simpa using this
    have hsy : e.sy = 1/3 := by
      have := (depack_fields _ _ _ (by exact hmk)).2.1
      simpa using this
    simp [h1, h4, h7, h2, h8, hsx, hsy]

/-- C4 (amended): on an event whose normalized origin is already seeded (true
of every constructed event), each successful `move` sets previous = pre-call
current in both spaces, stamps `time_update`, and recomputes the normalized
delta as current - previous; the screen delta is left untouched (it is only
recomputed by `scale_for_screen` / `apply_transform_2d`). -/
theorem move_updates (s : MotionEvent) (now : Rat) (args : Args)
    (t : MotionEvent) (v : Rat) (hosx : s.osx = some v)
    (ht : move s now args = some t) :
    t.px = some s.x ∧ t.py = some s.y ∧ t.pz = some s.z ∧
    t.psx = some s.sx ∧ t.psy = some s.sy ∧ t.psz = some s.sz ∧
    t.time_update = now ∧
    t.dsx = some (t.sx - s.sx) ∧ t.dsy = some (t.sy - s.sy) ∧
    t.dsz = some (t.sz - s.sz) ∧
    t.dx = s.dx ∧ t.dy = s.dy ∧ t.dz = s.dz ∧
    t.x = s.x ∧ t.y = s.y ∧ t.z = s.z := by
  unfold move at ht
  have hd := depack_fields _ _ _ ht
  obtain ⟨hsx, hsy, hsz, hx, hy, hz, -, -, -, hpx, hpy, hpz,
    hdx, hdy, hdz, -, -, hkeep, hdsx, hdsy, hdsz, -, -, -, -, -, htu, -⟩ := hd
  obtain ⟨-, -, -, hpsx, hpsy, hpsz⟩ := hkeep v hosx
  refine ⟨hpx, hpy, hpz, hpsx, hpsy, hpsz, htu, ?_, ?_, ?_,
    hdx, hdy, hdz, hx, hy, hz⟩
  · exact hdsx s.sx hpsx
  · exact hdsy s.sy hpsy
  · exact hdsz s.sz hpsz

/-- Witness for C4 at a concrete move. -/
theorem move_updates_witness :
    (move sampleTouch 9 ⟨some (2/3), none, none⟩).map
      (fun t => (t.px, t.psx, t.time_update, t.dsx, t.dx))
      = some (some 0, some (1/2), 9, some (2/3 - 1/2), none) := by
  rcases hmv : move sampleTouch 9 ⟨some (2/3), none, none⟩ with _ | t
  · simp [move, depack, sampleTouch] at hmv
  · obtain ⟨hpx, -, -, hpsx, -, -, htu, hdsx, -, -, hdx, -⟩ :=
      move_updates sampleTouch 9 ⟨some (2/3), none, none⟩ t (1/2) rfl hmv
    have hsx : t.sx = 2/3 := by
      have := (depack_fields _ _ _ (by exact hmv)).1
      simpa using this
    simp [hpx, hpsx, htu, hdsx, hdx, hsx, sampleTouch]

/-- C4 counterexample: the screen delta is not recomputed by `move`, so right
after a second `move` the stored `dx` (here 100) differs from
current - previous (here 0): the claim's screen-space delta equation fails. -/
theorem move_screen_delta_stale :
    (((((mkMotionEvent "d" 0 ⟨some 0, some 0, some 0⟩ 0).bind
        (fun e => scale_for_screen e 200 100 none 0)).bind
        (fun e => move e 1 ⟨some (1/2), none, none⟩)).bind
        (fun e => scale_for_screen e 200 100 none 0)).bind
        (fun e => move e 2 ⟨some (1/2), none, none⟩)).map
      (fun t => (t.x, t.px, t.dx)) = some (100, some 100, some 100) ∧
    (100 : Rat) - 100 ≠ 100 := by
  constructor
  · norm_num [mkMotionEvent, depack, scale_for_screen, scaleTail,
      seedAndDelta, pStep, rotStep, move, Option.bind]
  · norm_num

/-- Field accounting for `apply_transform_2d`: transformed current, previous
and origin planar pairs, recomputed planar delta, everything else untouched. -/
theorem apply_transform_2d_fields (s : MotionEvent)
    (f : Rat → Rat → Rat × Rat) (t : MotionEvent)
    (ht : apply_transform_2d s f = some t) :
    t.x = (f s.x s.y).1 ∧ t.y = (f s.x s.y).2 ∧ t.pos = f s.x s.y ∧
    t.z = s.z ∧ t.pz = s.pz ∧ t.oz = s.oz ∧ t.dz = s.dz ∧
    t.sx = s.sx ∧ t.sy = s.sy ∧ t.sz = s.sz ∧
    t.osx = s.osx ∧ t.osy = s.osy ∧ t.osz = s.osz ∧
    t.psx = s.psx ∧ t.psy = s.psy ∧ t.psz = s.psz ∧
    t.dsx = s.dsx ∧ t.dsy = s.dsy ∧ t.dsz = s.dsz ∧
    (∀ a b, s.px = some a → s.py = some b →
      t.px = some (f a b).1 ∧ t.py = some (f a b).2 ∧
      t.dx = some (t.x - (f a b).1) ∧ t.dy = some (t.y - (f a b).2)) ∧
    (∀ c d, s.ox = some c → s.oy = some d →
      t.ox = some (f c d).1 ∧ t.oy = some (f c d).2) ∧
    t.push_attrs_stack = s.push_attrs_stack ∧
    t.push_attrs = s.push_attrs ∧
    t.grab_list = s.grab_list ∧
    t.grab_exclusive_class = s.grab_exclusive_class ∧
    t.is_touch = s.is_touch ∧
    t.time_update = s.time_update := by
  rcases hpx : s.px with _ | a <;> rcases hpy : s.py with _ | b <;>
    rcases hox : s.ox with _ | c <;> rcases hoy : s.oy with _ | d <;>
    simp only [apply_transform_2d, hpx, hpy, hox, hoy] at ht
  all_goals try exact Option.noConfusion ht
  rw [Option.some.injEq] at ht
  subst ht
  simp_all

/-- C3 (amended): the normalized origins `osx/osy/osz` are assigned on the
first `depack` and preserved by every later `depack`, `move`,
`scale_for_screen`, `apply_transform_2d` and `push`; the screen origins
`ox/oy/oz` are assigned on the first `scale_for_screen` and preserved by
`depack`, `move`, later `scale_for_screen` and `push`; `apply_transform_2d`,
however, maps `(ox, oy)` through the caller's transform (`oz` is untouched),
and `pop` rewrites origins to whatever a `push` captured earlier. -/
theorem origin_set_once_amended :
    (∀ (s : MotionEvent) (args : Args) (t : MotionEvent),
      depack s args = some t →
      (∀ v, s.osx = some v →
        t.osx = some v ∧ t.osy = s.osy ∧ t.osz = s.osz) ∧
      (s.osx = none →
        t.osx = some t.sx ∧ t.osy = some t.sy ∧ t.osz = some t.sz) ∧
      t.ox = s.ox ∧ t.oy = s.oy ∧ t.oz = s.oz) ∧
    (∀ (s : MotionEvent) (now : Rat) (args : Args) (t : MotionEvent),
      move s now args = some t →
      (∀ v, s.osx = some v →
        t.osx = some v ∧ t.osy = s.osy ∧ t.osz = s.osz) ∧
      t.ox = s.ox ∧ t.oy = s.oy ∧ t.oz = s.oz) ∧
    (∀ (s : MotionEvent) (w h : Rat) (p : Option Rat) (rot : Int)
        (t : MotionEvent), scale_for_screen s w h p rot = some t →
      t.osx = s.osx ∧ t.osy = s.osy ∧ t.osz = s.osz ∧
      (s.ox = none → t.ox = some t.x ∧ t.oy = some t.y ∧ t.oz = some t.z) ∧
      (∀ v, s.ox = some v → t.ox = some v ∧ t.oy = s.oy ∧ t.oz = s.oz)) ∧
    (∀ (s : MotionEvent) (f : Rat → Rat → Rat × Rat) (t : MotionEvent),
      apply_transform_2d s f = some t →
      t.osx = s.osx ∧ t.osy = s.osy ∧ t.osz = s.osz ∧ t.oz = s.oz) ∧
    (∀ (s : MotionEvent) (oA : Option (List AttrName)),
      (push s oA).osx = s.osx ∧ (push s oA).osy = s.osy ∧
      (push s oA).osz = s.osz ∧ (push s oA).ox = s.ox ∧
      (push s oA).oy = s.oy ∧ (push s oA).oz = s.oz) := by
  refine ⟨?_, ?_, ?_, ?_, ?_⟩
  · intro s args t ht
    obtain ⟨-, -, -, -, -, -, hox, hoy, hoz, -, -, -, -, -, -, -,
      hseed, hkeep, -⟩ := depack_fields _ _ _ ht
    exact ⟨fun v hv => ⟨(hkeep v hv).1, (hkeep v hv).2.1, (hkeep v hv).2.2.1⟩,
      fun hn => ⟨(hseed hn).1, (hseed hn).2.1, (hseed hn).2.2.1⟩, hox, hoy, hoz⟩
  · intro s now args t ht
    unfold move at ht
    obtain ⟨-, -, -, -, -, -, hox, hoy, hoz, -, -, -, -, -, -, -,
      -, hkeep, -⟩ := depack_fields _ _ _ ht
    exact ⟨fun v hv => ⟨(hkeep v hv).1, (hkeep v hv).2.1, (hkeep v hv).2.2.1⟩,
      hox, hoy, hoz⟩
  · intro s w h p rot t ht
    have ht2 : seedAndDelta (pStep (rotStep s w h rot) p) = some t := ht
    obtain ⟨hx, hy, hz, -, -, -, -, hosx, hosy, hosz, -, -, -, -, -, -,
      hkeep, hseed, -⟩ := seedAndDelta_fields _ _ ht2
    have e1 : (pStep (rotStep s w h rot) p).osx = s.osx := by
      simp [pStep_eq, rotStep_eq]
    have e2 : (pStep (rotStep s w h rot) p).osy = s.osy := by
      simp [pStep_eq, rotStep_eq]
    have e3 : (pStep (rotStep s w h rot) p).osz = s.osz := by
      simp [pStep_eq, rotStep_eq]
    have e4 : (pStep (rotStep s w h rot) p).ox = s.ox := by
      simp [pStep_eq, rotStep_eq]
    have e5 : (pStep (rotStep s w h rot) p).oy = s.oy := by
      simp [pStep_eq, rotStep_eq]
    have e6 : (pStep (rotStep s w h rot) p).oz = s.oz := by
      simp [pStep_eq, rotStep_eq]
    refine ⟨by rw [hosx, e1], by rw [hosy, e2], by rw [hosz, e3], ?_, ?_⟩
    · intro hn
      obtain ⟨k1, k2, k3, -⟩ := hseed (by rw [e4]; exact hn)
      exact ⟨by rw [k1, hx], by rw [k2, hy], by rw [k3, hz]⟩
    · intro v hv
      obtain ⟨k1, k2, k3, -⟩ := hkeep v (by rw [e4]; exact hv)
      exact ⟨k1, by rw [k2, e5], by rw [k3, e6]⟩
  · intro s f t ht
    obtain ⟨-, -, -, -, -, hoz, -, -, -, -, hosx, hosy, hosz, -⟩ :=
      apply_transform_2d_fields _ _ _ ht
    exact ⟨hosx, hosy, hosz, hoz⟩
  · intro s oA
    exact ⟨rfl, rfl, rfl, rfl, rfl, rfl⟩

/-- Witness for C3 at a concrete depack that preserves the seeded origin. -/
theorem origin_set_once_amended_witness :
    (depack sampleTouch ⟨some (3/4), none, none⟩).map (fun t => (t.osx, t.ox))
      = some (some (1/2), none) := by
  rcases hd : depack sampleTouch ⟨some (3/4), none, none⟩ with _ | t
  · simp [depack, sampleTouch] at hd
  · obtain ⟨hkeep, -, hox, -⟩ :=
      origin_set_once_amended.1 sampleTouch ⟨some (3/4), none, none⟩ t hd
    obtain ⟨h1, -, -⟩ := hkeep (1/2) rfl
    simp [h1, hox, sampleTouch]

/-- C3 counterexample: after the screen origin is first assigned (to 100),
`apply_transform_2d` rewrites it (to 101), and a `pop` of a snapshot taken in
between rewrites it again (back to 100) — so the screen origin is not
immutable after its first assignment. -/
theorem origin_changed_by_transform_and_pop :
    (scale_for_screen sampleTouch 200 100 none 0).map (fun t => t.ox)
      = some (some 100) ∧
    ((scale_for_screen sampleTouch 200 100 none 0).bind
        (fun e => apply_transform_2d e (fun a b => (a + 1, b)))).map
      (fun t => t.ox) = some (some 101) ∧
    some (101 : Rat) ≠ some (100 : Rat) ∧
    ((scale_for_screen sampleTouch 200 100 none 0).bind (fun e =>
        (apply_transform_2d (push e (some [AttrName.ox]))
            (fun a b => (a + 1, b))).bind (fun e2 => (pop e2).toOption))).map
      (fun t => t.ox) = some (some 100) := by
  refine ⟨?_, ?_, by norm_num, ?_⟩ <;>
    norm_num [scale_for_screen, scaleTail, seedAndDelta, pStep, rotStep,
      apply_transform_2d, push, pop, restoreAttrs, getattr, setattr,
      sampleTouch, Except.toOption, defaultPushAttrs]

/-- C8: for every caller-supplied planar mapping `f` (on an event whose
previous and origin screen pairs are set), `apply_transform_2d` maps the
current, previous and origin pairs through `f`, refreshes the cached `pos`
to the new `(x, y)`, recomputes `dx`, `dy` from the transformed pair, and
leaves `z`, `pz`, `oz`, `dz` and every normalized coordinate unchanged. -/
theorem apply_transform_2d_spec (s : MotionEvent)
    (f : Rat → Rat → Rat × Rat) (a b c d : Rat)
    (hpx : s.px = some a) (hpy : s.py = some b)
    (hox : s.ox = some c) (hoy : s.oy = some d) :
    ∃ t, apply_transform_2d s f = some t ∧
      t.x = (f s.x s.y).1 ∧ t.y = (f s.x s.y).2 ∧
      t.px = some (f a b).1 ∧ t.py = some (f a b).2 ∧
      t.ox = some (f c d).1 ∧ t.oy = some (f c d).2 ∧
      t.pos = (t.x, t.y) ∧
      t.dx = some (t.x - (f a b).1) ∧ t.dy = some (t.y - (f a b).2) ∧
      t.z = s.z ∧ t.pz = s.pz ∧ t.oz = s.oz ∧ t.dz = s.dz ∧
      t.sx = s.sx ∧ t.sy = s.sy ∧ t.sz = s.sz ∧
      t.osx = s.osx ∧ t.osy = s.osy ∧ t.osz = s.osz ∧
      t.psx = s.psx ∧ t.psy = s.psy ∧ t.psz = s.psz ∧
      t.dsx = s.dsx ∧ t.dsy = s.dsy ∧ t.dsz = s.dsz := by
  rcases hap : apply_transform_2d s f with _ | t
  · exfalso
    simp only [apply_transform_2d, hpx, hpy, hox, hoy] at hap
    exact Option.noConfusion hap
  · obtain ⟨hx, hy, hpos, hz, hpz, hoz, hdz, hsx, hsy, hsz,
      hosx, hosy, hosz, hpsx, hpsy, hpsz, hdsx, hdsy, hdsz,
      hprev, horig, -⟩ := apply_transform_2d_fields _ _ _ hap
    obtain ⟨k1, k2, k3, k4⟩ := hprev a b hpx hpy
    obtain ⟨m1, m2⟩ := horig c d hox hoy
    exact ⟨t, rfl, hx, hy, k1, k2, m1, m2,
      by rw [hpos, hx, hy], k3, k4, hz, hpz, hoz, hdz,
      hsx, hsy, hsz, hosx, hosy, hosz, hpsx, hpsy, hpsz, hdsx, hdsy, hdsz⟩

/-- Witness for C8 on a concrete event and transform. -/
theorem apply_transform_2d_spec_witness :
    (apply_transform_2d { sampleTouch with
        px := some 1, py := some 2, ox := some 3, oy := some 4 }
        (fun a b => (a + b, a * b))).map (fun t => (t.px, t.ox, t.z, t.dsx))
      = some (some 3, some 7, 0, some 0) := by
  obtain ⟨t, ht, hx, hy, hpx, hpy, hox, hoy, hpos, hdx, hdy, hz, -, -, -,
    -, -, -, -, -, -, -, -, -, hdsx, -⟩ :=
    apply_transform_2d_spec { sampleTouch with
        px := some 1, py := some 2, ox := some 3, oy := some 4 }
      (fun a b => (a + b, a * b)) 1 2 3 4 rfl rfl rfl rfl
  rw [ht]
  norm_num [hpx, hox, hz, hdsx, sampleTouch]

/-- Reading back an attribute just written with a value read from the same
attribute returns that value. -/
theorem getattr_setattr_same (s s0 : MotionEvent) (a : AttrName) :
    getattr (setattr s a (getattr s0 a)) a = getattr s0 a := by
  cases a <;> rfl

/-- Writing one attribute leaves every other attribute unchanged. -/
theorem getattr_setattr_ne (s s0 : MotionEvent) (a b : AttrName)
    (hab : a ≠ b) :
    getattr (setattr s b (getattr s0 b)) a = getattr s a := by
  cases a <;> cases b <;> first | rfl | exact absurd rfl hab

/-- Writing an attribute never touches the snapshot stack. -/
theorem setattr_stack (s : MotionEvent) (a : AttrName) (v : Value) :
    (setattr s a v).push_attrs_stack = s.push_attrs_stack := by
  cases a <;> cases v <;> rfl

/-- Writing an attribute never touches the default push set. -/
theorem setattr_push_attrs (s : MotionEvent) (a : AttrName) (v : Value) :
    (setattr s a v).push_attrs = s.push_attrs := by
  cases a <;> cases v <;> rfl

/-- Pushing a snapshot changes no data attribute. -/
theorem getattr_push (s : MotionEvent) (oA : Option (List AttrName))
    (a : AttrName) :
    getattr (push s oA) a = getattr s a := by
  cases a <;> rfl

/-- Raw reassignments never touch the snapshot stack. -/
theorem applyMuts_stack (ms : List (AttrName × Value)) :
    ∀ s : MotionEvent,
      (applyMuts ms s).push_attrs_stack = s.push_attrs_stack := by
  induction ms with
  | nil => intro s; rfl
  | cons m ms ih =>
      intro s
      have h : applyMuts (m :: ms) s = applyMuts ms (setattr s m.1 m.2) := rfl
      rw [h, ih, setattr_stack]

/-- The restore loop never touches the snapshot stack. -/
theorem restoreAttrs_stack (A : List AttrName) :
    ∀ (vs : List Value) (s : MotionEvent),
      (restoreAttrs s A vs).push_attrs_stack = s.push_attrs_stack := by
  induction A with
  | nil => intro vs s; cases vs <;> rfl
  | cons a A ih =>
      intro vs s
      cases vs with
      | nil => rfl
      | cons v vs =>
          have h : restoreAttrs s (a :: A) (v :: vs)
              = restoreAttrs (setattr s a v) A vs := rfl
          rw [h, ih, setattr_stack]

/-- Restoring a captured list leaves attributes outside the list unchanged. -/
theorem restoreAttrs_frame (s0 : MotionEvent) (a : AttrName)
    (A : List AttrName) :
    ∀ (s : MotionEvent), a ∉ A →
      getattr (restoreAttrs s A (A.map (getattr s0))) a = getattr s a := by
  induction A with
  | nil => intro s _; rfl
  | cons b A ih =>
      intro s ha
      rw [List.mem_cons, not_or] at ha
      have h : restoreAttrs s (b :: A) ((b :: A).map (getattr s0))
          = restoreAttrs (setattr s b (getattr s0 b)) A (A.map (getattr s0)) :=
        rfl
      rw [h, ih _ ha.2, getattr_setattr_ne _ _ _ _ ha.1]

/-- Restoring a captured list brings every listed attribute back to its
capture-time value. -/
theorem restoreAttrs_mem (s0 : MotionEvent) (A : List AttrName) :
    ∀ (s : MotionEvent) (a : AttrName), a ∈ A →
      getattr (restoreAttrs s A (A.map (getattr s0))) a = getattr s0 a := by
  induction A with
  | nil => intro s a ha; exact absurd ha (List.not_mem_nil a)
  | cons b A ih =>
      intro s a ha
      have hr : restoreAttrs s (b :: A) ((b :: A).map (getattr s0))
          = restoreAttrs (setattr s b (getattr s0 b)) A (A.map (getattr s0)) :=
        rfl
      rw [hr]
      by_cases hmem : a ∈ A
      · exact ih _ a hmem
      · have hab : a = b := by
          rcases List.mem_cons.mp ha with h | h
          · exact h
          · exact absurd h hmem
        subst hab
        rw [restoreAttrs_frame s0 a A _ hmem, getattr_setattr_same]

/-- C6: for every attribute list A, `push(A)` followed by any sequence of
raw attribute reassignments followed by `pop()` restores every attribute
named in A to its push-time value, and restores the snapshot stack to its
pre-push state. -/
theorem push_mutate_pop_roundtrip (s : MotionEvent) (A : List AttrName)
    (ms : List (AttrName × Value)) :
    ∃ t, pop (applyMuts ms (push s (some A))) = .ok t ∧
      (∀ a, a ∈ A → getattr t a = getattr s a) ∧
      t.push_attrs_stack = s.push_attrs_stack := by
  have hstack : (applyMuts ms (push s (some A))).push_attrs_stack
      = (A, A.map (getattr s)) :: s.push_attrs_stack := by
    rw [applyMuts_stack]
    rfl
  have hpop : pop (applyMuts ms (push s (some A)))
      = .ok (restoreAttrs { applyMuts ms (push s (some A)) with
            push_attrs_stack := s.push_attrs_stack } A (A.map (getattr s))) := by
    unfold pop
    rw [hstack]
  refine ⟨_, hpop, ?_, ?_⟩
  · intro a ha
    exact restoreAttrs_mem s A _ a ha
  · rw [restoreAttrs_stack]

/-- Witness for C6: push `x`, clobber `x`, pop; `x` and the stack are back. -/
theorem push_mutate_pop_roundtrip_witness :
    (pop (applyMuts [(AttrName.x, Value.rat 99)]
        (push sampleTouch (some [AttrName.x])))).toOption.map
      (fun t => (getattr t .x, t.push_attrs_stack))
      = some (getattr sampleTouch .x, sampleTouch.push_attrs_stack) := by
  obtain ⟨t, h1, h2, h3⟩ :=
    push_mutate_pop_roundtrip sampleTouch [.x] [(.x, .rat 99)]
  rw [h1]
  simp [Except.toOption, h2 AttrName.x (by simp), h3]

/-- C7: `pop()` on an empty snapshot stack raises `EmptyStackUnderflow`; the
stack is popped before any attribute is written, so the failing call leaves
the event object exactly as it was. -/
theorem pop_empty_stack (s : MotionEvent) (h : s.push_attrs_stack = []) :
    pop s = .error .emptyStackUnderflow ∧ tryPop s = s := by
  constructor
  · unfold pop
    rw [h]
  · unfold tryPop pop
    rw [h]

/-- Witness for C7 on a concrete event with an empty stack. -/
theorem pop_empty_stack_witness :
    pop sampleTouch = .error .emptyStackUnderflow ∧
    tryPop sampleTouch = sampleTouch :=
  pop_empty_stack sampleTouch rfl

/-- A successful `grab` only touches the grab registry. -/
theorem grab_ok_fields (s t : MotionEvent) (c : Nat) (ex : Bool)
    (ht : grab s c ex = .ok t) :
    t.pos = s.pos ∧ t.x = s.x ∧ t.y = s.y ∧
    t.push_attrs_stack = s.push_attrs_stack ∧
    t.push_attrs = s.push_attrs := by
  by_cases h1 : s.is_touch = false
  · simp [grab, h1] at ht
  · by_cases h2 : s.grab_exclusive_class.isSome = true
    · simp [grab, h1, h2] at ht
    · cases ex <;> simp [grab, h1, h2] at ht <;> subst ht <;> simp

/-- Ungrabbing only touches the grab registry. -/
theorem ungrab_fields (s : MotionEvent) (c : Nat) :
    (ungrab s c).pos = s.pos ∧ (ungrab s c).x = s.x ∧
    (ungrab s c).y = s.y ∧
    (ungrab s c).push_attrs_stack = s.push_attrs_stack ∧
    (ungrab s c).push_attrs = s.push_attrs := by
  refine ⟨?_, ?_, ?_, ?_, ?_⟩ <;>
    (simp only [ungrab]; split_ifs <;> rfl)

/-- Restoring a default-set snapshot captured from `u` overwrites exactly the
default-set attributes with `u`'s values. -/
theorem restore_default (s u : MotionEvent) :
    restoreAttrs s defaultPushAttrs (defaultPushAttrs.map (getattr u)) =
      { s with x := u.x, y := u.y, z := u.z, dx := u.dx, dy := u.dy,
               dz := u.dz, ox := u.ox, oy := u.oy, oz := u.oz,
               px := u.px, py := u.py, pz := u.pz, pos := u.pos } := by
  simp only [defaultPushAttrs, List.map, restoreAttrs, setattr, getattr]

/-- The strengthened invariant behind C10: the cached `pos` matches `(x, y)`,
the default push set is intact, and every stack entry is a default-set
snapshot of a state that itself satisfied the `pos` cache equation. -/
theorem reach_inv (s : MotionEvent) (h : Reach s) :
    s.pos = (s.x, s.y) ∧ s.push_attrs = defaultPushAttrs ∧
    ∀ en ∈ s.push_attrs_stack,
      ∃ u : MotionEvent,
        en = (defaultPushAttrs, defaultPushAttrs.map (getattr u)) ∧
        u.pos = (u.x, u.y) := by
  induction h with
  | init d i a now e he =>
      obtain ⟨-, -, -, -, -, -, -, -, -, hx, hy, -, hpos, -, -, -, -, -, -,
        -, -, -, hstack, hpush, -⟩ := mkMotionEvent_fields _ _ _ _ _ he
      refine ⟨by rw [hpos, hx, hy], hpush, ?_⟩
      rw [hstack]
      intro en hen
      exact absurd hen (List.not_mem_nil en)
  | step_depack s1 t1 args1 hs ht ih =>
      obtain ⟨hinv, hpush, hst⟩ := ih
      obtain ⟨-, -, -, hx, hy, -, -, -, -, -, -, -, -, -, -, hpos, -, -,
        -, -, -, hstack, hpushp, -⟩ := depack_fields _ _ _ ht
      refine ⟨by rw [hpos, hx, hy]; exact hinv, by rw [hpushp]; exact hpush, ?_⟩
      rw [hstack]
      exact hst
  | step_move s1 t1 now1 args1 hs ht ih =>
      obtain ⟨hinv, hpush, hst⟩ := ih
      unfold move at ht
      obtain ⟨-, -, -, hx, hy, -, -, -, -, -, -, -, -, -, -, hpos, -, -,
        -, -, -, hstack, hpushp, -⟩ := depack_fields _ _ _ ht
      refine ⟨by rw [hpos, hx, hy]; exact hinv, by rw [hpushp]; exact hpush, ?_⟩
      rw [hstack]
      exact hst
  | step_scale s1 t1 w h1 p rot hs ht ih =>
      obtain ⟨hinv, hpush, hst⟩ := ih
      have ht2 : seedAndDelta (pStep (rotStep s1 w h1 rot) p) = some t1 := ht
      obtain ⟨hx, hy, -, hpos, -, -, -, -, -, -, -, -, -, -, -, -, -, -,
        hstack, hpushp, -⟩ := seedAndDelta_fields _ _ ht2
      have e1 : (pStep (rotStep s1 w h1 rot) p).push_attrs_stack
          = s1.push_attrs_stack := by simp [pStep_eq, rotStep_eq]
      have e2 : (pStep (rotStep s1 w h1 rot) p).push_attrs
          = s1.push_attrs := by simp [pStep_eq, rotStep_eq]
      refine ⟨by rw [hpos, hx, hy], by rw [hpushp, e2]; exact hpush, ?_⟩
      rw [hstack, e1]
      exact hst
  | step_apply s1 t1 f hs ht ih =>
      obtain ⟨hinv, hpush, hst⟩ := ih
      obtain ⟨hx, hy, hpos, -, -, -, -, -, -, -, -, -, -, -, -, -, -, -,
        -, -, -, hstack, hpushp, -⟩ := apply_transform_2d_fields _ _ _ ht
      refine ⟨by rw [hpos, hx, hy], by rw [hpushp]; exact hpush, ?_⟩
      rw [hstack]
      exact hst
  | step_grab s1 t1 c ex hs ht ih =>
      obtain ⟨hinv, hpush, hst⟩ := ih
      obtain ⟨hpos, hx, hy, hstack, hpushp⟩ := grab_ok_fields _ _ _ _ ht
      refine ⟨by rw [hpos, hx, hy]; exact hinv, by rw [hpushp]; exact hpush, ?_⟩
      rw [hstack]
      exact hst
  | step_ungrab s1 c hs ih =>
      obtain ⟨hinv, hpush, hst⟩ := ih
      obtain ⟨hpos, hx, hy, hstack, hpushp⟩ := ungrab_fields s1 c
      refine ⟨by rw [hpos, hx, hy]; exact hinv, by rw [hpushp]; exact hpush, ?_⟩
      rw [hstack]
      exact hst
  | step_push s1 hs ih =>
      obtain ⟨hinv, hpush, hst⟩ := ih
      refine ⟨hinv, hpush, ?_⟩
      intro en hen
      have hstack : (push s1 none).push_attrs_stack
          = (s1.push_attrs, s1.push_attrs.map (getattr s1))
            :: s1.push_attrs_stack := rfl
      rw [hstack] at hen
      rcases List.mem_cons.mp hen with hh | hh
      · exact ⟨s1, by rw [hh, hpush], hinv⟩
      · exact hst en hh
  | step_pop s1 t1 hs hp ih =>
      obtain ⟨hinv, hpush, hst⟩ := ih
      rcases hstack : s1.push_attrs_stack with _ | ⟨en, rest⟩
      · unfold pop at hp
        rw [hstack] at hp
        exact Except.noConfusion hp
      · obtain ⟨u, hen, hu⟩ := hst en (by rw [hstack]; exact List.mem_cons_self _ _)
        unfold pop at hp
        rw [hstack, hen] at hp
        simp only [Except.ok.injEq] at hp
        rw [restore_default] at hp
        subst hp
        refine ⟨?_, ?_, ?_⟩
        · simpa using hu
        · exact hpush
        · intro en2 hen2
          exact hst en2 (by rw [hstack]; exact List.mem_cons_of_mem _ hen2)

/-- C10: for every event reachable from construction by any sequence of
depack, move, scale_for_screen (any rotation, supported or not),
apply_transform_2d, grab, ungrab and default-set push/pop, the cached `pos`
pair equals `(x, y)`. -/
theorem pos_cache_consistent (s : MotionEvent) (h : Reach s) :
    s.pos = (s.x, s.y) :=
  (reach_inv s h).1

/-- Witness for C10 on a concrete constructed event. -/
theorem pos_cache_consistent_witness :
    (mkMotionEvent "d" 0 ⟨none, none, none⟩ 0).map (fun e => (e.pos, e.x, e.y))
      = some ((0, 0), 0, 0) := by
  rcases hmk : mkMotionEvent "d" 0 ⟨none, none, none⟩ 0 with _ | e
  · simp [mkMotionEvent, depack] at hmk
  · have hp := pos_cache_consistent e (Reach.init "d" 0 ⟨none, none, none⟩ 0 e hmk)
    obtain ⟨-, -, -, -, -, -, -, -, -, hx, hy, -⟩ :=
      mkMotionEvent_fields _ _ _ _ _ hmk
    rw [hx, hy] at hp
    simp [hp, hx, hy]
